import Mathlib

/-!
Shallow embedding of the NatteeScraper HTML-scraping core
(`src/natteescraper/scraper.py`, `src/natteescraper/models.py`).

Strings are modelled as Lean `String` / `List Char`; Python exceptions as an
explicit error type returned through `Except`; the third-party pieces
(requests sessions, BeautifulSoup parse results, pydantic validation) are
modelled as abstract inputs: extractor functions take the already-parsed
fragments (cell texts, link hrefs, textarea contents) the library would hand
to the repository code, and the repository logic itself is translated
line by line.
-/

set_option autoImplicit false

/-- Python exception kinds raised/caught by the scraper code.
`ScrapingError` for the unrecognized-language case carries the offending
language value structurally (the source formats it into the message). -/
inductive PyErr where
  | scraping (msg : String)
  | languageNotRegistered (lang : String)
  | valueError (msg : String)
  | typeError (msg : String)
  | indexError
  deriving DecidableEq, Repr

/-! ### Python string primitives used by the source -/

/-- Whitespace recognized by Python `str.strip()` (ASCII part; the scraped
pages are ASCII in the relevant positions). -/
def isPySpace (c : Char) : Bool :=
  c = ' ' || c = '\t' || c = '\n' || c = '\r' || c = '\x0b' || c = '\x0c'

/-- Python `str.lstrip()` on a character list. -/
def lstripL (s : List Char) : List Char := s.dropWhile isPySpace

/-- Python `str.rstrip()` on a character list. -/
def rstripL (s : List Char) : List Char := (s.reverse.dropWhile isPySpace).reverse

/-- Python `str.strip()` on a character list. -/
def pyStripL (s : List Char) : List Char := rstripL (lstripL s)

/-- Python `str.strip()` on a `String`. -/
def pyStrip (s : String) : String := ⟨pyStripL s.data⟩

/-- Python `str.removesuffix(suf)`: drop `suf` from the end when present. -/
def removesuffixL (suf s : List Char) : List Char :=
  if suf.isSuffixOf s then s.take (s.length - suf.length) else s

/-- Python `str.removeprefix(pre)`: drop `pre` from the front when present. -/
def removePrefixL (pre s : List Char) : List Char :=
  if pre.isPrefixOf s then s.drop pre.length else s

/-- Python `str.strip(chars)`: drop characters of `chars` from both ends. -/
def stripSetL (chars : List Char) (s : List Char) : List Char :=
  ((s.dropWhile (· ∈ chars)).reverse.dropWhile (· ∈ chars)).reverse

/-- Python `str.lstrip(chars)` for a single character set, used for
`pdf_url.lstrip("/")`. -/
def lstripCharL (c : Char) (s : List Char) : List Char := s.dropWhile (· = c)

/-- Python `str.split(sep)` for a one-character separator, on character
lists (keeps empty pieces, like Python `split` with an explicit
separator). -/
def splitOnCharL (sep : Char) : List Char → List (List Char)
  | [] => [[]]
  | c :: t =>
    match splitOnCharL sep t with
    | [] => [[]]
    | h :: r => if c = sep then [] :: h :: r else (c :: h) :: r

/-- Python list indexing `xs[i]`: negative indices count from the end,
out-of-range raises `IndexError`. -/
def pyGet {α : Type} (xs : List α) (i : Int) : Except PyErr α :=
  let j : Int := if i < 0 then i + xs.length else i
  if h : 0 ≤ j ∧ j < (xs.length : Int) then
    .ok (xs.get ⟨j.toNat, by omega⟩)
  else
    .error .indexError

/-- Python `str.isdigit()` (ASCII digits; nonempty). -/
def pyIsDigit (s : String) : Bool := !s.data.isEmpty && s.data.all (·.isDigit)

/-- `int(s)` for a digit string. -/
def digitsToNat (s : String) : Nat := s.data.foldl (fun n c => n * 10 + (c.toNat - 48)) 0

/-! ### Python `dict` model (insertion-ordered association list) -/

/-- `d[k] = v` on a Python dict: replace in place when the key exists,
otherwise append at the end. -/
def dictInsert {α : Type} (d : List (String × α)) (k : String) (v : α) :
    List (String × α) :=
  if d.any (fun p => p.1 == k) then
    d.map (fun p => if p.1 == k then (k, v) else p)
  else
    d ++ [(k, v)]

/-- `d.get(k)` / `d[k]` lookup (first binding; keys are kept unique by
`dictInsert`). -/
def dictGet {α : Type} (d : List (String × α)) (k : String) : Option α :=
  (d.find? (fun p => p.1 == k)).map (·.2)

/-- Python `d.update(e)`: insert every entry of `e` into `d` in order. -/
def dictUpdate {α : Type} (d e : List (String × α)) : List (String × α) :=
  e.foldl (fun acc kv => dictInsert acc kv.1 kv.2) d

/-! ### Data model (`models.py`) -/

/-- `TestCase` (models.py): one input/output pair. -/
structure TestCase where
  input : String
  output : String
  deriving DecidableEq, Repr

/-- `User` (models.py via scraper usage): author of a submission. -/
structure User where
  user_name : String
  user_id : String
  student_id : String
  deriving DecidableEq, Repr

/-- `Submissions` (models.py): one parsed submission page.
`score`/`runtime` are floats and `graded` a datetime in the source; they are
modelled as `Rat`/`String` since no claim depends on their arithmetic. -/
structure Submissions where
  user : Option User
  task_id : String
  score : Rat
  code : String
  language : String
  runtime : Rat
  memory : Int
  graded : String
  deriving DecidableEq, Repr

/-- `HallOfFame` (models.py): four source-code strings, as declared
(`best_runtime : str`, ...). This is what `scraper.py`'s
`_scrape_hall_of_fame` constructs. -/
structure HallOfFame where
  best_runtime : String
  best_memory : String
  shortest_code : String
  first_solver : String
  deriving DecidableEq, Repr

/-- A Python value passed to a pydantic `str`-declared field: either an
actual string, or a `Submissions` model instance — which is what
`models.py`'s `PartialTask.__scrape_hall_of_fame` passes, since the `.code`
projection present in scraper.py is missing there. -/
inductive PydanticValue where
  | str (s : String)
  | submission (s : Submissions)
  deriving DecidableEq, Repr

/-- The pydantic `ValidationError` (a `ValueError` subclass) raised when a
non-string value is validated against a `str`-declared field. -/
def pydanticStrErr (fieldName : String) : PyErr :=
  .valueError ("pydantic ValidationError: " ++ fieldName
    ++ " should be a valid string")

/-- pydantic v2 validation of one `str`-declared field (library behavior):
a string passes through unchanged; a model instance such as `Submissions`
is rejected with a `ValidationError`. -/
def pydantic_validate_str (fieldName : String) (v : PydanticValue) :
    Except PyErr String :=
  match v with
  | .str s => .ok s
  | .submission _ => .error (pydanticStrErr fieldName)

/-- `PartialTask` (models.py): lightweight task descriptor. `pdf_url` is a
pydantic `HttpUrl`, modelled as the validated URL string. -/
structure PartialTask where
  task_name : String
  task_nickname : String
  task_id : String
  pdf_url : String
  deriving DecidableEq, Repr

/-- The `Language` literal set (models.py). -/
def recognizedLanguages : List String :=
  ["C", "C++", "Pascal", "Java", "Ruby", "Python", "Haskell", "Digital",
   "PHP", "Rust", "Go", "PostgreSQL"]

/-! ### Code cleaning (`NatteeScraper._clean_scraped_code`) -/

/-- The trailing HTML newline-entity artifact `&#x000A;`. -/
def artifact : List Char :=
  ['&', '#', 'x', '0', '0', '0', 'A', ';']

/-- `_clean_scraped_code` (scraper.py line 455):
`code.strip().removesuffix("&#x000A;").replace("\r", "").strip()`. -/
def clean (code : List Char) : List Char :=
  pyStripL ((removesuffixL artifact (pyStripL code)).filter (fun c => c ≠ '\r'))

/-- `_clean_scraped_code` on `String`. -/
def cleanStr (code : String) : String := ⟨clean code.data⟩

/-! ### Submission code extraction (`_scrape_submission`, the regex
`re.findall(r"<textarea[^>]*>(.*)</textarea>", text, re.DOTALL)[0]`) -/

/-- The characters of `"<textarea"`. -/
def lit1 : List Char :=
  ['<', 't', 'e', 'x', 't', 'a', 'r', 'e', 'a']

/-- The characters of `"</textarea>"`. -/
def lit2 : List Char :=
  ['<', '/', 't', 'e', 'x', 't', 'a', 'r', 'e', 'a', '>']

/-- The `[^>]*>` part of the pattern: skip to just past the first `'>'`
(greedy `[^>]*` followed by a mandatory `'>'` deterministically consumes up
to the first `'>'`; fails when there is none). -/
def dropToGt : List Char → Option (List Char)
  | [] => none
  | c :: t => if c = '>' then some t else dropToGt t

/-- The `(.*)</textarea>` part with `re.DOTALL`: the greedy capture extends
to the last occurrence of `</textarea>`; `none` when there is none. -/
def capToLast : List Char → Option (List Char)
  | [] => none
  | c :: t =>
    match capToLast t with
    | some r => some (c :: r)
    | none => if lit2.isPrefixOf (c :: t) then some [] else none

/-- One attempt of the pattern anchored at the start of `s`. -/
def matchAt (s : List Char) : Option (List Char) :=
  if lit1.isPrefixOf s then
    match dropToGt (s.drop lit1.length) with
    | some rest => capToLast rest
    | none => none
  else none

/-- Leftmost match of the pattern: the capture group of
`re.findall(...)[0]`. -/
def firstMatch : List Char → Option (List Char)
  | [] => matchAt []
  | s@(_ :: t) =>
    match matchAt s with
    | some r => some r
    | none => firstMatch t

/-- The code-extraction step of `_scrape_submission` (scraper.py lines
151-159): first regex capture, `ScrapingError` when there is none, then
`_clean_scraped_code`. -/
def scrapeSubmissionCode (submission_id : String) (page : List Char) :
    Except PyErr (List Char) :=
  match firstMatch page with
  | some raw => .ok (clean raw)
  | none =>
    .error (.scraping ("No content found in <textarea> for submission ID: "
      ++ submission_id))

/-! ### Test-case extraction (`_scrape_test_cases` in scraper.py lines
242-261 and the textually identical `PartialTask.__scrape_test_cases` in
models.py lines 88-98). The input is the list of textarea text contents in
document order, as produced by `soup.find_all("textarea")`. -/

/-- Python slice `xs[::2]`. -/
def sliceStep2 {α : Type} : List α → List α
  | [] => []
  | [a] => [a]
  | a :: _ :: rest => a :: sliceStep2 rest

/-- `NatteeScraper._scrape_test_cases` core:
`inputs, outputs = textareas[::2], textareas[1::2]` zipped into `TestCase`
records. -/
def scrape_test_cases (textareas : List String) : List TestCase :=
  let inputs := sliceStep2 textareas
  let outputs := sliceStep2 (textareas.drop 1)
  List.zipWith (fun i o => TestCase.mk i o) inputs outputs

/-- `PartialTask.__scrape_test_cases` core (models.py): textually the same
computation. -/
def models_scrape_test_cases (textareas : List String) : List TestCase :=
  let inputs := sliceStep2 textareas
  let outputs := sliceStep2 (textareas.drop 1)
  List.zipWith (fun i o => TestCase.mk i o) inputs outputs

/-- Specification-side description of the pairing claimed in the spec:
adjacent blocks paired in document order, trailing unpaired block dropped. -/
def pairAdjacent : List String → List TestCase
  | a :: b :: rest => TestCase.mk a b :: pairAdjacent rest
  | _ => []

/-! ### Hall-of-fame resolution (`_scrape_hall_of_fame` in scraper.py lines
263-315 and `PartialTask.__scrape_hall_of_fame` in models.py lines 100-136).
A body row is modelled by the first cell's stripped text
(`row.select_one("td").get_text(strip=True)`) and the list of visible texts
of its `td a[href^='/submissions']` links; submission fetching+parsing
(`_scrape_submission`) is abstracted as a `resolve` function from submission
id to the parsed `Submissions`. -/

/-- A hall-of-fame body row as handed to the loop body. -/
structure FameRow where
  languageText : String
  links : List String
  deriving DecidableEq, Repr

/-- `link.get_text(strip=True).strip("()").removeprefix("#")`. -/
def linkToSubId (linkText : String) : String :=
  ⟨removePrefixL ['#'] (stripSetL ['(', ')'] (pyStripL linkText.data))⟩

/-- The four-reference entry built by `_scrape_hall_of_fame` (scraper.py
lines 301-314): each link is resolved and the `.code` field stored. -/
def hofEntryS (resolve : String → Except PyErr Submissions) (r : FameRow) :
    Except PyErr HallOfFame := do
  let l0 ← pyGet r.links 0
  let s0 ← resolve (linkToSubId l0)
  let l1 ← pyGet r.links 1
  let s1 ← resolve (linkToSubId l1)
  let l2 ← pyGet r.links 2
  let s2 ← resolve (linkToSubId l2)
  let l3 ← pyGet r.links 3
  let s3 ← resolve (linkToSubId l3)
  .ok (HallOfFame.mk s0.code s1.code s2.code s3.code)

/-- The entry built by `PartialTask.__scrape_hall_of_fame` (models.py lines
122-135): the four argument expressions resolve each link and pass the
whole `Submissions` value (no `.code`), then the `HallOfFame(...)` call
validates each argument against the declared `str` field type, so pydantic
raises a `ValidationError` on the first field. -/
def hofEntryM (resolve : String → Except PyErr Submissions) (r : FameRow) :
    Except PyErr HallOfFame := do
  let l0 ← pyGet r.links 0
  let s0 ← resolve (linkToSubId l0)
  let l1 ← pyGet r.links 1
  let s1 ← resolve (linkToSubId l1)
  let l2 ← pyGet r.links 2
  let s2 ← resolve (linkToSubId l2)
  let l3 ← pyGet r.links 3
  let s3 ← resolve (linkToSubId l3)
  let b0 ← pydantic_validate_str "best_runtime" (.submission s0)
  let b1 ← pydantic_validate_str "best_memory" (.submission s1)
  let b2 ← pydantic_validate_str "shortest_code" (.submission s2)
  let b3 ← pydantic_validate_str "first_solver" (.submission s3)
  .ok (HallOfFame.mk b0 b1 b2 b3)

/-- The row loop of `_scrape_hall_of_fame`: language membership in the
`Language` literal set is checked before the entry is built
(scraper.py lines 295-299), then `fame[language] = HallOfFame(...)`. -/
def hofLoopS (resolve : String → Except PyErr Submissions) :
    List FameRow → List (String × HallOfFame) →
    Except PyErr (List (String × HallOfFame))
  | [], fame => .ok fame
  | r :: rs, fame =>
    if r.languageText ∈ recognizedLanguages then
      match hofEntryS resolve r with
      | .ok e => hofLoopS resolve rs (dictInsert fame r.languageText e)
      | .error err => .error err
    else
      .error (.languageNotRegistered r.languageText)

/-- `NatteeScraper._scrape_hall_of_fame` on the parsed body rows. -/
def scrape_hall_of_fame (resolve : String → Except PyErr Submissions)
    (rows : List FameRow) : Except PyErr (List (String × HallOfFame)) :=
  hofLoopS resolve rows []

/-- The row loop of `PartialTask.__scrape_hall_of_fame` (models.py): no
language validation at all, then `fame[language] = HallOfFame(...)` with the
whole submissions (which pydantic rejects). -/
def hofLoopM (resolve : String → Except PyErr Submissions) :
    List FameRow → List (String × HallOfFame) →
    Except PyErr (List (String × HallOfFame))
  | [], fame => .ok fame
  | r :: rs, fame =>
    match hofEntryM resolve r with
    | .ok e => hofLoopM resolve rs (dictInsert fame r.languageText e)
    | .error err => .error err

/-- `PartialTask.__scrape_hall_of_fame` on the parsed body rows. -/
def models_scrape_hall_of_fame (resolve : String → Except PyErr Submissions)
    (rows : List FameRow) : Except PyErr (List (String × HallOfFame)) :=
  hofLoopM resolve rows []

/-! ### Author parsing inside `_scrape_submission` (scraper.py lines
178-194). The `User` value cell is modelled by its own text (the
concatenation of its direct text nodes, `find_all(text=True,
recursive=False)`) and its optional first `<a>` tag (href attribute and link
text). -/

/-- The `<a>` tag inside the User cell. -/
structure UserLinkTag where
  href : Option String
  text : String
  deriving DecidableEq, Repr

/-- The User value cell. -/
structure UserCell where
  ownText : String
  link : Option UserLinkTag
  deriving DecidableEq, Repr

/-- The platform's author-redaction marker. -/
def redactionMarker : String := "-- REDACTED --"

/-- The author-parsing block of `_scrape_submission`:
`user_name = "".join(...).strip()`; when it is not the redaction marker, the
profile link must exist with a string href and
`user_id = href.strip().split("/")[-2]`. -/
def parseUser (cell : UserCell) : Except PyErr (Option User) :=
  let user_name := pyStrip cell.ownText
  if user_name = redactionMarker then
    .ok none
  else
    match cell.link with
    | none => .error (.scraping "Failed to find user link")
    | some lnk =>
      match lnk.href with
      | none => .error (.scraping "Invalid user ID format")
      | some href => do
        let user_id ← pyGet (splitOnCharL '/' (pyStripL href.data)) (-2)
        .ok (some (User.mk user_name (⟨user_id⟩ : String) lnk.text))

/-! ### Task catalog extraction (`__scrape_tasks`, `__process_task_row`,
`__get_tasks_id`, `__extract_index`, `__extract_task_info`). A table cell is
modelled by the parse results the extractors read from it: the first cell's
`<div>` text, and the second cell's name/nickname/pdf-link pieces. -/

/-- One `<td>` of a catalog row, carrying the sub-elements the extractors
look up (each `Option` is `none` when the selector finds nothing). -/
structure TaskCell where
  divText : Option String
  nameText : Option String
  nicknameText : Option String
  pdfLink : Option (Option String)
  deriving DecidableEq, Repr

/-- One `<tr>` of the catalog table: its `Tag` children. -/
structure TaskRow where
  cells : List TaskCell
  deriving DecidableEq, Repr

/-- `DEFAULT_ROOT_URL` (constants.py). -/
def DEFAULT_ROOT_URL : String := "https://cedt-grader.nattee.net"

/-- `__extract_index` (scraper.py lines 406-418): the first cell's `<div>`
text must be purely numeric; returns the 0-based index `int(text) - 1`. -/
def extractIndex (c : TaskCell) : Except PyErr Int :=
  match c.divText with
  | some t =>
    if pyIsDigit t then .ok ((digitsToNat t : Int) - 1)
    else .error (.valueError "Task index element is missing or invalid.")
  | none => .error (.valueError "Task index element is missing or invalid.")

/-- `__extract_task_info` (scraper.py lines 420-445): name and nickname tags
must exist; the pdf link must exist with a nonempty string href; the href is
joined to the root URL after `lstrip("/")`. -/
def extractTaskInfo (c : TaskCell) : Except PyErr (String × String × String) :=
  match c.nameText, c.nicknameText with
  | some nm, some nk =>
    match c.pdfLink with
    | some (some href) =>
      if href.data.isEmpty then
        .error (.valueError "PDF URL is missing or invalid.")
      else
        .ok (nm, nk, DEFAULT_ROOT_URL ++ "/" ++ (⟨lstripCharL '/' href.data⟩ : String))
    | some none => .error (.valueError "PDF URL is missing or invalid.")
    | none => .error (.valueError "PDF URL is missing or invalid.")
  | _, _ => .error (.valueError "Task name or nickname element is missing.")

/-- pydantic `TypeAdapter(HttpUrl).validate_python` (library behavior),
abstracted to the scheme check relevant here: the URLs built by
`__extract_task_info` always start with the https root. An invalid URL
raises pydantic `ValidationError`, a subclass of `ValueError`. -/
def validateHttpUrl (s : String) : Except PyErr String :=
  if "http://".data.isPrefixOf s.data || "https://".data.isPrefixOf s.data then
    .ok s
  else .error (.valueError "invalid HttpUrl")

/-- `__process_task_row` (scraper.py lines 317-342): exactly six cell
children required (`ValueError` otherwise, naming the count), then index,
task info, `tasks_id[index]`, and pdf-url validation, in evaluation
order. -/
def processTaskRow (tasksId : List String) (row : TaskRow) :
    Except PyErr PartialTask :=
  match row.cells with
  | [c0, c1, _, _, _, _] => do
    let index ← extractIndex c0
    let info ← extractTaskInfo c1
    let tid ← pyGet tasksId index
    let pdf ← validateHttpUrl info.2.2
    .ok (PartialTask.mk info.1 info.2.1 tid pdf)
  | cs =>
    .error (.valueError ("Unexpected number of columns: " ++ toString cs.length))

/-- The row loop of `__scrape_tasks` (scraper.py lines 130-136): each row is
processed; `ValueError` and `TypeError` are caught, logged and the row
skipped; any other exception propagates and aborts the whole extraction. -/
def scrapeTasks (tasksId : List String) :
    List TaskRow → Except PyErr (List PartialTask)
  | [] => .ok []
  | r :: rs =>
    match processTaskRow tasksId r with
    | .ok t => (scrapeTasks tasksId rs).map (fun ts => t :: ts)
    | .error (.valueError _) => scrapeTasks tasksId rs
    | .error (.typeError _) => scrapeTasks tasksId rs
    | .error e => .error e

/-- `__get_tasks_id` (scraper.py lines 344-365): the `value` attributes of
the dropdown options after the first placeholder, keeping only present,
truthy (nonempty) string values, in document order. Each option is modelled
by its optional `value` attribute. -/
def getTasksId (options : List (Option String)) : List String :=
  (options.drop 1).filterMap (fun v =>
    match v with
    | some s => if s.data.isEmpty then none else some s
    | none => none)

/-! ### Session cloning (`clone_session`, scraper.py lines 60-79). A
`requests.Session` is modelled by its cookie dict, its header dict and the
rest of its state; a fresh `Session()` starts with empty cookies and the
library default headers, here a parameter `defaultHeaders`. -/

/-- The modelled mutable state of a `requests.Session`. `rest` stands for
all fields other than cookies and headers (adapters, auth, ...). -/
structure SessionS where
  cookies : List (String × String)
  headers : List (String × String)
  rest : Nat
  deriving DecidableEq, Repr

/-- `Session()`: fresh session with empty cookie jar, default headers, and
fresh other state `freshRest`. -/
def sessionNew (defaultHeaders : List (String × String)) (freshRest : Nat) :
    SessionS :=
  SessionS.mk [] defaultHeaders freshRest

/-- `clone_session` (scraper.py lines 60-79): create a new `Session()`,
`new.cookies.update(old.cookies)`, `new.headers.update(old.headers)`; the
current session is only read, never written, so it is returned unchanged as
the second component. -/
def clone_session (defaultHeaders : List (String × String)) (freshRest : Nat)
    (s : SessionS) : SessionS × SessionS :=
  let new_session := sessionNew defaultHeaders freshRest
  let new_session := { new_session with
    cookies := dictUpdate new_session.cookies s.cookies }
  let new_session := { new_session with
    headers := dictUpdate new_session.headers s.headers }
  (new_session, s)

/-! ### Helper lemmas: `strip` behaves like Mathlib's `dropWhile`/`rdropWhile` -/

theorem rstripL_eq_rdropWhile (s : List Char) :
    rstripL s = List.rdropWhile isPySpace s := rfl

theorem pyStripL_eq (s : List Char) :
    pyStripL s = List.rdropWhile isPySpace (s.dropWhile isPySpace) := rfl

theorem dropWhile_eq_self_of_headq {α : Type} (p : α → Bool) (l : List α)
    (h : ∀ c, l.head? = some c → p c = false) : l.dropWhile p = l := by
  cases l with
  | nil => rfl
  | cons a t =>
    have ha := h a rfl
    simp [List.dropWhile_cons, ha]

theorem headq_dropWhile_false {α : Type} (p : α → Bool) :
    ∀ (l : List α) (c : α), (l.dropWhile p).head? = some c → p c = false
  | [], c => by simp [List.dropWhile]
  | a :: t, c => by
    by_cases h : p a
    · rw [List.dropWhile_cons_of_pos h]
      exact headq_dropWhile_false p t c
    · rw [List.dropWhile_cons_of_neg h]
      intro he
      simp only [List.head?_cons, Option.some.injEq] at he
      subst he
      simpa using h

theorem dropWhile_rdropWhile_dropWhile (p : Char → Bool) (s : List Char) :
    List.dropWhile p (List.rdropWhile p (List.dropWhile p s)) =
      List.rdropWhile p (List.dropWhile p s) := by
  apply dropWhile_eq_self_of_headq
  intro c hc
  obtain ⟨t, ht⟩ := List.rdropWhile_prefix p (List.dropWhile p s)
  have hds : (List.dropWhile p s).head? = some c := by
    rw [← ht]
    cases hcase : List.rdropWhile p (List.dropWhile p s) with
    | nil => rw [hcase] at hc; simp at hc
    | cons a r =>
      rw [hcase] at hc
      simp only [List.head?_cons, Option.some.injEq] at hc
      subst hc
      rfl
  exact headq_dropWhile_false p s c hds

theorem pyStripL_idem (s : List Char) : pyStripL (pyStripL s) = pyStripL s := by
  rw [pyStripL_eq, pyStripL_eq, dropWhile_rdropWhile_dropWhile,
    List.rdropWhile_idempotent]

theorem mem_of_mem_pyStripL {c : Char} {s : List Char} (h : c ∈ pyStripL s) :
    c ∈ s := by
  rw [pyStripL_eq] at h
  have h1 := (List.rdropWhile_prefix isPySpace (s.dropWhile isPySpace)).sublist.subset h
  exact (List.dropWhile_sublist isPySpace (l := s)).subset h1

/-! ### Claim C3: idempotence of `_clean_scraped_code` -/

/-- C3 counterexample: the claim `clean(clean(x)) == clean(x)` for every
string `x` is false on the code. On `"abc&#x000A;&#x000A;"` the first pass
strips one trailing `&#x000A;` artifact and leaves another, which the second
pass strips as well, so `clean(clean(x)) = "abc" ≠ "abc&#x000A;" =
clean(x)`. -/
theorem c3_clean_not_idempotent :
    clean (clean ("abc&#x000A;&#x000A;".data)) ≠ clean ("abc&#x000A;&#x000A;".data) := by
  decide

/-- C3 (amended): the code-cleaning function is idempotent on every string
whose cleaned form does not itself end with the `&#x000A;` artifact; in
general `clean(clean(x)) = clean(x)` fails exactly when a second trailing
artifact survives the first pass. -/
theorem c3_clean_idempotent_amended (s : List Char)
    (h : artifact.isSuffixOf (clean s) = false) :
    clean (clean s) = clean s := by
  have hstrip : pyStripL (clean s) = clean s := by
    show pyStripL (pyStripL _) = pyStripL _
    exact pyStripL_idem _
  have hsuffix : removesuffixL artifact (clean s) = clean s := by
    rw [removesuffixL, h]
    simp
  have hfilter : (clean s).filter (fun c => c ≠ '\r') = clean s := by
    apply List.filter_eq_self.mpr
    intro c hc
    have hc2 : c ∈ (removesuffixL artifact (pyStripL s)).filter
        (fun c => c ≠ '\r') := mem_of_mem_pyStripL hc
    exact (List.mem_filter.mp hc2).2
  show pyStripL ((removesuffixL artifact (pyStripL (clean s))).filter
      (fun c => c ≠ '\r')) = clean s
  rw [hstrip, hsuffix, hfilter, hstrip]

/-- C3 amended witness: concrete run at `"  x  "`. -/
theorem c3_clean_idempotent_amended_witness :
    artifact.isSuffixOf (clean ("  x  ".data)) = false ∧
      clean (clean ("  x  ".data)) = clean ("  x  ".data) :=
  ⟨by decide, c3_clean_idempotent_amended ("  x  ".data) (by decide)⟩

/-! ### Claim C6: test-case pairing -/

theorem scrape_test_cases_eq_pairAdjacent :
    ∀ ts : List String, scrape_test_cases ts = pairAdjacent ts
  | [] => rfl
  | [a] => rfl
  | a :: b :: r => by
    have ih := scrape_test_cases_eq_pairAdjacent r
    simp only [scrape_test_cases, sliceStep2, List.drop_succ_cons,
      List.drop_zero] at ih ⊢
    cases r with
    | nil => rfl
    | cons x xs =>
      simp only [sliceStep2, List.zipWith_cons_cons, pairAdjacent]
      rw [← ih]
      rcases xs with _ | ⟨y, ys⟩ <;> rfl

theorem pairAdjacent_length :
    ∀ ts : List String, (pairAdjacent ts).length = ts.length / 2
  | [] => rfl
  | [_] => by simp [pairAdjacent]
  | _ :: _ :: r => by
    have ih := pairAdjacent_length r
    simp only [pairAdjacent, List.length_cons, ih]
    omega

/-- C6: on a page with `n` textarea blocks in document order, the test-case
extractor (both `_scrape_test_cases` and the identical
`PartialTask.__scrape_test_cases`) returns exactly `⌊n/2⌋` pairs, pairing
the i-th even-indexed block as input with the i-th odd-indexed block as
output, truncating to the shorter parity group with no error; concretely 4
blocks give 2 pairs in document order and 3 blocks give 1 pair with the
trailing block dropped. -/
theorem c6_test_case_pairing :
    (∀ ts : List String,
      scrape_test_cases ts = pairAdjacent ts ∧
      models_scrape_test_cases ts = scrape_test_cases ts ∧
      (scrape_test_cases ts).length = ts.length / 2) ∧
    scrape_test_cases ["i1", "o1", "i2", "o2"] =
      [TestCase.mk "i1" "o1", TestCase.mk "i2" "o2"] ∧
    scrape_test_cases ["i1", "o1", "i2"] = [TestCase.mk "i1" "o1"] := by
  refine ⟨fun ts => ⟨scrape_test_cases_eq_pairAdjacent ts, rfl, ?_⟩, by decide, by decide⟩
  rw [scrape_test_cases_eq_pairAdjacent ts]
  exact pairAdjacent_length ts

/-! ### Claims C4 and C10: catalog row processing -/

/-- Outcomes of a row that the row loop survives: success, or an exception
caught by `except (ValueError, TypeError)`. -/
def rowNonFatal (e : Except PyErr PartialTask) : Bool :=
  match e with
  | .ok _ => true
  | .error (.valueError _) => true
  | .error (.typeError _) => true
  | .error _ => false

theorem pyGet_ge {α : Type} (xs : List α) (i : Int)
    (h : (xs.length : Int) ≤ i) : pyGet xs i = .error .indexError := by
  unfold pyGet
  have h0 : ¬ i < 0 := by omega
  simp only [h0, if_false]
  rw [dif_neg (by omega)]

theorem processTaskRow_len_ne_six (ids : List String) (r : TaskRow)
    (h : r.cells.length ≠ 6) :
    processTaskRow ids r =
      .error (.valueError ("Unexpected number of columns: "
        ++ toString r.cells.length)) := by
  rcases r with ⟨cells⟩
  rcases cells with _ | ⟨a, _ | ⟨b, _ | ⟨c, _ | ⟨d, _ | ⟨e, _ | ⟨f, _ | ⟨g, rest⟩⟩⟩⟩⟩⟩⟩ <;>
    first
      | rfl
      | exact absurd rfl h

theorem getTasksId_spec :
    ∀ l : List (Option String),
      l.filterMap (fun v => match v with
        | some s => if s.data.isEmpty then none else some s
        | none => none) =
      (l.filterMap id).filter (fun s => !s.data.isEmpty)
  | [] => rfl
  | none :: t => by
    simpa [List.filterMap_cons] using getTasksId_spec t
  | some s :: t => by
    have ih := getTasksId_spec t
    by_cases h : s.data = [] <;>
      simp only [List.filterMap_cons, List.isEmpty_iff] at ih ⊢ <;>
      simp [h, ih]

theorem scrapeTasks_filter_six (ids : List String) :
    ∀ rows : List TaskRow,
      scrapeTasks ids rows =
        scrapeTasks ids (rows.filter (fun r => r.cells.length == 6))
  | [] => rfl
  | r :: rs => by
    by_cases h : r.cells.length = 6
    · have hfilter : (r :: rs).filter (fun r => r.cells.length == 6) =
          r :: rs.filter (fun r => r.cells.length == 6) := by
        simp [List.filter_cons, h]
      rw [hfilter]
      show (match processTaskRow ids r with
        | .ok t => (scrapeTasks ids rs).map (fun ts => t :: ts)
        | .error (.valueError _) => scrapeTasks ids rs
        | .error (.typeError _) => scrapeTasks ids rs
        | .error e => .error e) = _
      rw [scrapeTasks_filter_six ids rs]
      rfl
    · have hfilter : (r :: rs).filter (fun r => r.cells.length == 6) =
          rs.filter (fun r => r.cells.length == 6) := by
        simp [List.filter_cons, h]
      rw [hfilter, ← scrapeTasks_filter_six ids rs]
      show (match processTaskRow ids r with
        | .ok t => (scrapeTasks ids rs).map (fun ts => t :: ts)
        | .error (.valueError _) => scrapeTasks ids rs
        | .error (.typeError _) => scrapeTasks ids rs
        | .error e => .error e) = scrapeTasks ids rs
      rw [processTaskRow_len_ne_six ids r h]

theorem scrapeTasks_all_nonfatal (ids : List String) :
    ∀ rows : List TaskRow,
      (∀ r ∈ rows, rowNonFatal (processTaskRow ids r) = true) →
      scrapeTasks ids rows =
        .ok (rows.filterMap (fun r => (processTaskRow ids r).toOption))
  | [], _ => rfl
  | r :: rs, h => by
    have hr := h r (List.mem_cons_self r rs)
    have hrs := scrapeTasks_all_nonfatal ids rs
      (fun x hx => h x (List.mem_cons_of_mem r hx))
    show (match processTaskRow ids r with
      | .ok t => (scrapeTasks ids rs).map (fun ts => t :: ts)
      | .error (.valueError _) => scrapeTasks ids rs
      | .error (.typeError _) => scrapeTasks ids rs
      | .error e => .error e) = _
    match hpr : processTaskRow ids r with
    | .ok t => simp [List.filterMap_cons, hpr, hrs, Except.toOption, Except.map]
    | .error (.valueError m) => simp [List.filterMap_cons, hpr, hrs, Except.toOption]
    | .error (.typeError m) => simp [List.filterMap_cons, hpr, hrs, Except.toOption]
    | .error (.scraping m) => simp [rowNonFatal, hpr] at hr
    | .error (.languageNotRegistered m) => simp [rowNonFatal, hpr] at hr
    | .error .indexError => simp [rowNonFatal, hpr] at hr

/-- C4: a catalog row whose cell count is not six fails row validation with
a `ValueError` naming the count, is skipped (excluded from the result), and
never aborts the extraction: the result equals that of the six-cell rows
alone, and when every row is either parsed or skippable the descriptors of
the surviving rows are returned. -/
theorem c4_bad_rows_skipped :
    (∀ (ids : List String) (r : TaskRow), r.cells.length ≠ 6 →
      processTaskRow ids r =
        .error (.valueError ("Unexpected number of columns: "
          ++ toString r.cells.length))) ∧
    (∀ (ids : List String) (rows : List TaskRow),
      scrapeTasks ids rows =
        scrapeTasks ids (rows.filter (fun r => r.cells.length == 6))) ∧
    (∀ (ids : List String) (rows : List TaskRow),
      (∀ r ∈ rows, rowNonFatal (processTaskRow ids r) = true) →
      scrapeTasks ids rows =
        .ok (rows.filterMap (fun r => (processTaskRow ids r).toOption))) :=
  ⟨processTaskRow_len_ne_six, scrapeTasks_filter_six, scrapeTasks_all_nonfatal⟩

theorem processTaskRow_indexError (ids : List String)
    (c0 c1 c2 c3 c4 c5 : TaskCell) (i : Int)
    (info : String × String × String)
    (hidx : extractIndex c0 = .ok i)
    (hinfo : extractTaskInfo c1 = .ok info)
    (hge : (ids.length : Int) ≤ i) :
    processTaskRow ids (TaskRow.mk [c0, c1, c2, c3, c4, c5]) =
      .error .indexError := by
  show (do
    let index ← extractIndex c0
    let info ← extractTaskInfo c1
    let tid ← pyGet ids index
    let pdf ← validateHttpUrl info.2.2
    pure (PartialTask.mk info.1 info.2.1 tid pdf) :
      Except PyErr PartialTask) = .error .indexError
  rw [hidx, hinfo]
  show (do
    let tid ← pyGet ids i
    let pdf ← validateHttpUrl info.2.2
    pure (PartialTask.mk info.1 info.2.1 tid pdf) :
      Except PyErr PartialTask) = .error .indexError
  rw [pyGet_ge ids i hge]
  rfl

theorem scrapeTasks_fatal_propagates (ids : List String) (row : TaskRow)
    (post : List TaskRow)
    (hrow : processTaskRow ids row = .error .indexError) :
    ∀ pre : List TaskRow,
      (∀ p ∈ pre, rowNonFatal (processTaskRow ids p) = true) →
      scrapeTasks ids (pre ++ row :: post) = .error .indexError
  | [], _ => by
    show (match processTaskRow ids row with
      | .ok t => (scrapeTasks ids post).map (fun ts => t :: ts)
      | .error (.valueError _) => scrapeTasks ids post
      | .error (.typeError _) => scrapeTasks ids post
      | .error e => .error e) = .error .indexError
    rw [hrow]
  | p :: pre, h => by
    have hp := h p (List.mem_cons_self p pre)
    have ih := scrapeTasks_fatal_propagates ids row post hrow pre
      (fun x hx => h x (List.mem_cons_of_mem p hx))
    show (match processTaskRow ids p with
      | .ok t => (scrapeTasks ids (pre ++ row :: post)).map (fun ts => t :: ts)
      | .error (.valueError _) => scrapeTasks ids (pre ++ row :: post)
      | .error (.typeError _) => scrapeTasks ids (pre ++ row :: post)
      | .error e => .error e) = .error .indexError
    match hpr : processTaskRow ids p with
    | .ok t => rw [ih]; rfl
    | .error (.valueError m) => exact ih
    | .error (.typeError m) => exact ih
    | .error (.scraping m) => simp [rowNonFatal, hpr] at hp
    | .error (.languageNotRegistered m) => simp [rowNonFatal, hpr] at hp
    | .error .indexError => simp [rowNonFatal, hpr] at hp

/-- C10: the task-identifier list is exactly the present, nonempty `value`
attributes of the dropdown options after the first placeholder, in document
order (missing or empty values silently omitted); and a row whose parsed
zero-based index is at least the length of that list hits an `IndexError`
in `tasks_id[index]` which the row-skip handler (catching only `ValueError`
and `TypeError`) does not catch, so the whole catalog extraction aborts with
it instead of skipping the row. -/
theorem c10_tasks_id_and_index_error :
    (∀ options : List (Option String),
      getTasksId options =
        ((options.drop 1).filterMap id).filter (fun s => !s.data.isEmpty)) ∧
    (∀ (ids : List String) (c0 c1 c2 c3 c4 c5 : TaskCell) (i : Int)
      (info : String × String × String),
      extractIndex c0 = .ok i → extractTaskInfo c1 = .ok info →
      (ids.length : Int) ≤ i →
      processTaskRow ids (TaskRow.mk [c0, c1, c2, c3, c4, c5]) =
        .error .indexError) ∧
    (∀ (ids : List String) (row : TaskRow) (pre post : List TaskRow),
      processTaskRow ids row = .error .indexError →
      (∀ p ∈ pre, rowNonFatal (processTaskRow ids p) = true) →
      scrapeTasks ids (pre ++ row :: post) = .error .indexError) :=
  ⟨fun _ => getTasksId_spec _,
   fun ids c0 c1 c2 c3 c4 c5 i info hidx hinfo hge =>
     processTaskRow_indexError ids c0 c1 c2 c3 c4 c5 i info hidx hinfo hge,
   fun ids row pre post hrow hpre =>
     scrapeTasks_fatal_propagates ids row post hrow pre hpre⟩

/-- Fixture: a well-formed index cell. -/
def cGood0 : TaskCell := TaskCell.mk (some "1") none none none

/-- Fixture: an index cell whose 1-based index is 2. -/
def cIdx2 : TaskCell := TaskCell.mk (some "2") none none none

/-- Fixture: a well-formed info cell. -/
def cGood1 : TaskCell :=
  TaskCell.mk none (some "A+B") (some "SUM") (some (some "/tasks/get_statement/42"))

/-- Fixture: a cell with nothing in it. -/
def cBlank : TaskCell := TaskCell.mk none none none none

/-- Fixture: a parseable six-cell catalog row. -/
def rowGood : TaskRow := TaskRow.mk [cGood0, cGood1, cBlank, cBlank, cBlank, cBlank]

/-- Fixture: a five-cell catalog row. -/
def rowBad5 : TaskRow := TaskRow.mk [cBlank, cBlank, cBlank, cBlank, cBlank]

/-- Fixture: a six-cell row whose 0-based index is 1. -/
def rowIdx2 : TaskRow := TaskRow.mk [cIdx2, cGood1, cBlank, cBlank, cBlank, cBlank]

/-- Fixture: a one-element task-identifier list. -/
def idsOne : List String := ["task_42"]

/-- C4 witness: concrete run with one good row and one five-cell row. -/
theorem c4_bad_rows_skipped_witness :
    processTaskRow idsOne rowBad5 =
      .error (.valueError ("Unexpected number of columns: "
        ++ toString rowBad5.cells.length)) ∧
    scrapeTasks idsOne [rowGood, rowBad5] =
      scrapeTasks idsOne
        ([rowGood, rowBad5].filter (fun r => r.cells.length == 6)) ∧
    scrapeTasks idsOne [rowGood, rowBad5] =
      .ok ([rowGood, rowBad5].filterMap
        (fun r => (processTaskRow idsOne r).toOption)) :=
  ⟨c4_bad_rows_skipped.1 idsOne rowBad5 (by decide),
   c4_bad_rows_skipped.2.1 idsOne [rowGood, rowBad5],
   c4_bad_rows_skipped.2.2 idsOne [rowGood, rowBad5] (by decide)⟩

/-- C10 witness: concrete dropdown options with a missing and an empty
value, and a concrete row whose index 1 overruns the one-element identifier
list, aborting the extraction with `IndexError`. -/
theorem c10_tasks_id_and_index_error_witness :
    getTasksId [some "placeholder", some "t1", none, some "", some "t2"] =
      (([some "placeholder", some "t1", none, some "", some "t2"].drop 1).filterMap
        id).filter (fun s => !s.data.isEmpty) ∧
    processTaskRow idsOne rowIdx2 = .error .indexError ∧
    scrapeTasks idsOne ([rowGood] ++ rowIdx2 :: []) = .error .indexError :=
  ⟨c10_tasks_id_and_index_error.1
      [some "placeholder", some "t1", none, some "", some "t2"],
   c10_tasks_id_and_index_error.2.1 idsOne cIdx2 cGood1 cBlank cBlank cBlank
      cBlank 1 ("A+B", "SUM", "https://cedt-grader.nattee.net/tasks/get_statement/42")
      rfl rfl (by decide),
   c10_tasks_id_and_index_error.2.2 idsOne rowIdx2 [rowGood] []
      (c10_tasks_id_and_index_error.2.1 idsOne cIdx2 cGood1 cBlank cBlank
        cBlank cBlank 1
        ("A+B", "SUM", "https://cedt-grader.nattee.net/tasks/get_statement/42")
        rfl rfl (by decide))
      (by decide)⟩

/-! ### Dict lemmas -/

theorem dictGet_cons {α : Type} (a : String × α) (d : List (String × α))
    (k : String) :
    dictGet (a :: d) k = if a.1 = k then some a.2 else dictGet d k := by
  by_cases h : a.1 = k <;> simp [dictGet, List.find?_cons, h]

theorem dictGet_map_replace_ne {α : Type} (k k' : String) (v : α)
    (h : k' ≠ k) :
    ∀ d : List (String × α),
      dictGet (d.map (fun p => if p.1 == k then (k, v) else p)) k' =
        dictGet d k'
  | [] => rfl
  | a :: d => by
    rw [List.map_cons, dictGet_cons, dictGet_cons]
    by_cases ha : a.1 = k
    · have hfa : (if a.1 == k then (k, v) else a) = (k, v) :=
        if_pos (beq_iff_eq.mpr ha)
    
      have h1 : ¬((k, v).1 = k') := fun hh => h hh.symm
      have h2 : ¬(a.1 = k') := by
        rw [ha]
        exact fun hh => h hh.symm
      rw [hfa, if_neg h1, if_neg h2, dictGet_map_replace_ne k k' v h d]
    · have hfa : (if a.1 == k then (k, v) else a) = a :=
        if_neg (fun hh => ha (beq_iff_eq.mp hh))
      rw [hfa, dictGet_map_replace_ne k k' v h d]

theorem dictGet_map_replace_self {α : Type} (k : String) (v : α) :
    ∀ d : List (String × α),
      d.any (fun p => p.1 == k) = true →
      dictGet (d.map (fun p => if p.1 == k then (k, v) else p)) k = some v
  | [], h => by simp at h
  | a :: d, h => by
    rw [List.map_cons, dictGet_cons]
    by_cases ha : a.1 = k
    · have hfa : (if a.1 == k then (k, v) else a) = (k, v) :=
        if_pos (beq_iff_eq.mpr ha)
      rw [hfa, if_pos rfl]
    · have hfa : (if a.1 == k then (k, v) else a) = a :=
        if_neg (fun hh => ha (beq_iff_eq.mp hh))
      have h2 : d.any (fun p => p.1 == k) = true := by
        rw [List.any_cons] at h
        rcases Bool.or_eq_true_iff.mp h with h1 | h1
        · exact absurd (beq_iff_eq.mp h1) ha
        · exact h1
      rw [hfa, if_neg ha]
      exact dictGet_map_replace_self k v d h2

theorem dictGet_append_single {α : Type} (k k' : String) (v : α) :
    ∀ d : List (String × α),
      d.any (fun p => p.1 == k) = false →
      dictGet (d ++ [(k, v)]) k' =
        if k' = k then some v else dictGet d k'
  | [], _ => by
    rw [List.nil_append, dictGet_cons]
    by_cases h : k' = k
    · rw [if_pos h.symm, if_pos h]
    · rw [if_neg (fun hh => h hh.symm), if_neg h]
  | a :: d, h => by
    rw [List.any_cons, Bool.or_eq_false_iff] at h
    have ha : ¬ a.1 = k := fun hh => by
      rw [beq_eq_false_iff_ne] at h
      exact h.1 hh
    have h2 : d.any (fun p => p.1 == k) = false := h.2
    rw [List.cons_append, dictGet_cons, dictGet_cons]
    by_cases ha' : a.1 = k'
    · have hne : ¬(k' = k) := fun hh => ha (ha'.trans hh)
      rw [if_pos ha', if_neg hne, if_pos ha']
    · rw [if_neg ha', dictGet_append_single k k' v d h2]
      by_cases hk : k' = k
      · rw [if_pos hk, if_pos hk]
      · rw [if_neg hk, if_neg hk, if_neg ha']

theorem dictGet_dictInsert {α : Type} (d : List (String × α))
    (k k' : String) (v : α) :
    dictGet (dictInsert d k v) k' =
      if k' = k then some v else dictGet d k' := by
  unfold dictInsert
  by_cases hany : d.any (fun p => p.1 == k) = true
  · rw [if_pos hany]
    by_cases hk : k' = k
    · subst hk
      rw [if_pos rfl]
      exact dictGet_map_replace_self k' v d hany
    · rw [if_neg hk]
      exact dictGet_map_replace_ne k k' v hk d
  · rw [if_neg hany]
    exact dictGet_append_single k k' v d (Bool.not_eq_true _ ▸ hany)

theorem keys_dictInsert_nodup {α : Type} (d : List (String × α))
    (k : String) (v : α) (h : (d.map Prod.fst).Nodup) :
    ((dictInsert d k v).map Prod.fst).Nodup := by
  unfold dictInsert
  by_cases hany : d.any (fun p => p.1 == k) = true
  · rw [if_pos hany]
    have hmap : ∀ t : List (String × α),
        (t.map (fun p => if p.1 == k then (k, v) else p)).map Prod.fst =
          t.map Prod.fst := by
      intro t
      induction t with
      | nil => rfl
      | cons a t ih =>
        rw [List.map_cons, List.map_cons, List.map_cons, ih]
        by_cases ha : a.1 = k
        · have hfa : (if a.1 == k then (k, v) else a) = (k, v) :=
            if_pos (beq_iff_eq.mpr ha)
          rw [hfa, ha]
        · have hfa : (if a.1 == k then (k, v) else a) = a :=
            if_neg (fun hh => ha (beq_iff_eq.mp hh))
          rw [hfa]
    rw [hmap]
    exact h
  · rw [if_neg hany, List.map_append]
    rw [List.nodup_append]
    refine ⟨h, List.nodup_singleton k, ?_⟩
    intro x hx hk
    simp only [List.map, List.mem_singleton] at hk
    subst hk
    simp only [List.mem_map] at hx
    obtain ⟨p, hp, hpx⟩ := hx
    apply hany
    rw [List.any_eq_true]
    exact ⟨p, hp, beq_iff_eq.mpr hpx⟩

/-! ### Hall-of-fame loop lemmas -/

theorem findq_append {α : Type} (p : α → Bool) :
    ∀ l₁ l₂ : List α,
      (l₁ ++ l₂).find? p =
        (match l₁.find? p with
          | some x => some x
          | none => l₂.find? p)
  | [], l₂ => rfl
  | a :: l₁, l₂ => by
    rw [List.cons_append, List.find?_cons, List.find?_cons]
    cases hpa : p a with
    | true => rfl
    | false => exact findq_append p l₁ l₂

theorem hofLoopS_ok (resolve : String → Except PyErr Submissions) :
    ∀ (rows : List FameRow) (acc d : List (String × HallOfFame)),
      hofLoopS resolve rows acc = .ok d →
      ((acc.map Prod.fst).Nodup → (d.map Prod.fst).Nodup) ∧
      ∀ k, dictGet d k =
        (match rows.reverse.find? (fun r => r.languageText == k) with
          | some r => (hofEntryS resolve r).toOption
          | none => dictGet acc k)
  | [], acc, d, h => by
    have hd : acc = d := by
      simpa [hofLoopS] using h
    subst hd
    exact ⟨fun hh => hh, fun k => rfl⟩
  | r :: rs, acc, d, h => by
    rw [hofLoopS] at h
    by_cases hlang : r.languageText ∈ recognizedLanguages
    · rw [if_pos hlang] at h
      cases hentry : hofEntryS resolve r with
      | error e => rw [hentry] at h; cases h
      | ok e =>
        rw [hentry] at h
        have ih := hofLoopS_ok resolve rs (dictInsert acc r.languageText e) d h
        refine ⟨fun hacc => ih.1 (keys_dictInsert_nodup acc r.languageText e hacc), ?_⟩
        intro k
        rw [ih.2 k, List.reverse_cons, findq_append]
        cases hfind : rs.reverse.find? (fun row => row.languageText == k) with
        | some r' => rfl
        | none =>
          rw [List.find?_cons]
          cases hrk : (r.languageText == k) with
          | true =>
            have hrk' : r.languageText = k := beq_iff_eq.mp hrk
            rw [dictGet_dictInsert, if_pos hrk'.symm]
            show some e = (hofEntryS resolve r).toOption
            rw [hentry]
            rfl
          | false =>
            have hrk' : ¬(k = r.languageText) := fun hh =>
              (beq_eq_false_iff_ne.mp hrk) hh.symm
            rw [dictGet_dictInsert, if_neg hrk']
            rfl
    · rw [if_neg hlang] at h
      cases h

theorem hofLoopS_no_ok (resolve : String → Except PyErr Submissions) :
    ∀ (rows : List FameRow) (r : FameRow), r ∈ rows →
      r.languageText ∉ recognizedLanguages →
      ∀ (acc : List (String × HallOfFame)) (d : List (String × HallOfFame)),
        hofLoopS resolve rows acc ≠ .ok d
  | [], r, hr, _, _, _ => by cases hr
  | r' :: rs, r, hr, hlang, acc, d => by
    intro h
    rw [hofLoopS] at h
    rcases List.mem_cons.mp hr with he | hmem
    · subst he
      rw [if_neg hlang] at h
      cases h
    · by_cases hl' : r'.languageText ∈ recognizedLanguages
      · rw [if_pos hl'] at h
        cases hentry : hofEntryS resolve r' with
        | error e => rw [hentry] at h; cases h
        | ok e =>
          rw [hentry] at h
          exact hofLoopS_no_ok resolve rs r hmem hlang
            (dictInsert acc r'.languageText e) d h
      · rw [if_neg hl'] at h
        cases h

theorem hofLoopS_first_bad (resolve : String → Except PyErr Submissions)
    (r : FameRow) (post : List FameRow)
    (hlang : r.languageText ∉ recognizedLanguages) :
    ∀ pre : List FameRow,
      (∀ p ∈ pre, p.languageText ∈ recognizedLanguages ∧
        ∃ e, hofEntryS resolve p = .ok e) →
      ∀ acc : List (String × HallOfFame),
        hofLoopS resolve (pre ++ r :: post) acc =
          .error (.languageNotRegistered r.languageText)
  | [], _, acc => by
    rw [List.nil_append, hofLoopS, if_neg hlang]
  | p :: pre, h, acc => by
    obtain ⟨hpl, e, he⟩ := h p (List.mem_cons_self p pre)
    rw [List.cons_append, hofLoopS, if_pos hpl, he]
    exact hofLoopS_first_bad resolve r post hlang pre
      (fun x hx => h x (List.mem_cons_of_mem p hx))
      (dictInsert acc p.languageText e)

theorem except_bind_ok {α β : Type} (v : α) (f : α → Except PyErr β) :
    (Except.ok v >>= f) = f v := rfl

theorem except_bind_error {α β : Type} (e : PyErr) (f : α → Except PyErr β) :
    ((Except.error e : Except PyErr α) >>= f) = Except.error e := rfl

theorem pyGet_int_ok {α : Type} (xs : List α) (d : α) (i : Int)
    (h0 : 0 ≤ i) (h : i < (xs.length : Int)) :
    pyGet xs i = .ok (xs.getD i.toNat d) := by
  unfold pyGet
  have hneg : ¬ i < 0 := by omega
  simp only [hneg, if_false]
  rw [dif_pos (by omega : (0 : Int) ≤ i ∧ i < (xs.length : Int))]
  congr 1
  rw [List.getD_eq_getElem?_getD, List.getElem?_eq_getElem (by omega)]
  simp only [Option.getD_some, List.get_eq_getElem]

theorem hofEntryM_raises (resolve : String → Except PyErr Submissions)
    (r : FameRow) (h4 : 4 ≤ r.links.length)
    (hres : ∀ id, ∃ s, resolve id = .ok s) :
    hofEntryM resolve r = .error (pydanticStrErr "best_runtime") := by
  have e0 := pyGet_int_ok r.links "" 0 (by omega) (by omega)
  have e1 := pyGet_int_ok r.links "" 1 (by omega) (by omega)
  have e2 := pyGet_int_ok r.links "" 2 (by omega) (by omega)
  have e3 := pyGet_int_ok r.links "" 3 (by omega) (by omega)
  obtain ⟨s0, hs0⟩ := hres (linkToSubId (r.links.getD ((0 : Int)).toNat ""))
  obtain ⟨s1, hs1⟩ := hres (linkToSubId (r.links.getD ((1 : Int)).toNat ""))
  obtain ⟨s2, hs2⟩ := hres (linkToSubId (r.links.getD ((2 : Int)).toNat ""))
  obtain ⟨s3, hs3⟩ := hres (linkToSubId (r.links.getD ((3 : Int)).toNat ""))
  unfold hofEntryM
  simp only [e0, e1, e2, e3, hs0, hs1, hs2, hs3, pydantic_validate_str,
    except_bind_ok, except_bind_error]

theorem hofLoopM_head_error (resolve : String → Except PyErr Submissions)
    (r : FameRow) (rest : List FameRow) (e : PyErr)
    (acc : List (String × HallOfFame))
    (h : hofEntryM resolve r = .error e) :
    hofLoopM resolve (r :: rest) acc = .error e := by
  rw [hofLoopM, h]

/-! ### Claims C1, C2, C8: hall-of-fame resolution -/

/-- Fixture: a submission whose code records the submission id it was
resolved from. -/
def subFix (code : String) : Submissions :=
  Submissions.mk none "taskX" 100 code "C" 1 1000 "graded"

/-- Fixture: a resolver that succeeds on every id. -/
def resolveFix : String → Except PyErr Submissions := fun s => .ok (subFix s)

/-- Fixture: the four reference links of a row. -/
def linksA : List String := ["(#1)", "(#2)", "(#3)", "(#4)"]

/-- Fixture: four other reference links. -/
def linksB : List String := ["(#5)", "(#6)", "(#7)", "(#8)"]

/-- Fixture: four more reference links. -/
def linksC : List String := ["(#9)", "(#10)", "(#11)", "(#12)"]

/-- Fixture: a one-row hall-of-fame table with a recognized language. -/
def rowsOne : List FameRow := [FameRow.mk "C" linksA]

/-- Fixture: a one-row hall-of-fame table with an unrecognized language. -/
def rowsBadLang : List FameRow := [FameRow.mk "Brainfuck" linksA]

/-- Fixture: a table in which language "C" appears in two rows. -/
def rowsDup : List FameRow :=
  [FameRow.mk "C" linksA, FameRow.mk "C++" linksB, FameRow.mk "C" linksC]

/-- Fixture: the mapping produced from `rowsDup` (later "C" row wins). -/
def dDup : List (String × HallOfFame) :=
  [("C", HallOfFame.mk "9" "10" "11" "12"),
   ("C++", HallOfFame.mk "5" "6" "7" "8")]

/-- C1: evaluation at a failing input. On the same resolved hall-of-fame
row, `NatteeScraper._scrape_hall_of_fame` stores the four resolved
submissions' `code` strings, while `PartialTask.__scrape_hall_of_fame`
passes the four whole `Submissions` records into `HallOfFame(...)` (the
`.code` projection is missing in models.py), so pydantic rejects them
against the declared `str` fields and the Task Resolver path raises a
`ValidationError` instead of producing the claimed code-string mapping. -/
theorem c1_resolver_path_raises_validation_error :
    scrape_hall_of_fame resolveFix rowsOne =
      .ok [("C", HallOfFame.mk "1" "2" "3" "4")] ∧
    models_scrape_hall_of_fame resolveFix rowsOne =
      .error (pydanticStrErr "best_runtime") ∧
    (subFix "1").code = "1" :=
  ⟨rfl, rfl, rfl⟩

/-- C2 counterexample: `PartialTask.__scrape_hall_of_fame` never validates
the language. On a table whose single body row carries the unrecognized
value "Brainfuck", the Task Resolver path fails with the pydantic
`ValidationError` caused by the missing `.code` — exactly as it does on a
recognized-language row — and not with an ExtractionError naming
"Brainfuck", contradicting the claim that both paths raise one. -/
theorem c2_models_path_does_not_validate :
    "Brainfuck" ∉ recognizedLanguages ∧
    models_scrape_hall_of_fame resolveFix rowsBadLang =
      .error (pydanticStrErr "best_runtime") ∧
    pydanticStrErr "best_runtime" ≠ .languageNotRegistered "Brainfuck" ∧
    models_scrape_hall_of_fame resolveFix rowsBadLang =
      models_scrape_hall_of_fame resolveFix rowsOne :=
  ⟨by decide, rfl, by decide, rfl⟩

/-- C2 (amended): on the direct scraper path
(`NatteeScraper._scrape_hall_of_fame`) a body row with an unrecognized
language prevents success, and when the rows before the first unrecognized
one are recognized and resolvable the result is exactly a `ScrapingError`
naming the unrecognized value; the Task Resolver path
(`PartialTask.__scrape_hall_of_fame`) performs no language validation at
all: whatever the first row's language — recognized or not — once its four
references resolve, the path fails with the pydantic `ValidationError`
caused by the missing `.code`, never with an error naming the language. -/
theorem c2_amended_language_check (resolve : String → Except PyErr Submissions)
    (rows : List FameRow) :
    (∀ r ∈ rows, r.languageText ∉ recognizedLanguages →
      ∀ d, scrape_hall_of_fame resolve rows ≠ .ok d) ∧
    (∀ (pre : List FameRow) (r : FameRow) (post : List FameRow),
      rows = pre ++ r :: post →
      (∀ p ∈ pre, p.languageText ∈ recognizedLanguages ∧
        ∃ e, hofEntryS resolve p = .ok e) →
      r.languageText ∉ recognizedLanguages →
      scrape_hall_of_fame resolve rows =
        .error (.languageNotRegistered r.languageText)) ∧
    (∀ (r : FameRow) (rest : List FameRow),
      4 ≤ r.links.length →
      (∀ id, ∃ s, resolve id = .ok s) →
      models_scrape_hall_of_fame resolve (r :: rest) =
        .error (pydanticStrErr "best_runtime")) :=
  ⟨fun r hr hlang d => hofLoopS_no_ok resolve rows r hr hlang [] d,
   fun pre r post hrows hpre hlang => by
     rw [hrows]
     exact hofLoopS_first_bad resolve r post hlang pre hpre [],
   fun r rest h4 hres =>
     hofLoopM_head_error resolve r rest (pydanticStrErr "best_runtime") []
       (hofEntryM_raises resolve r h4 hres)⟩

/-- C2 amended witness: concrete run on the "Brainfuck" row. -/
theorem c2_amended_language_check_witness :
    scrape_hall_of_fame resolveFix rowsBadLang ≠ .ok [] ∧
    scrape_hall_of_fame resolveFix rowsBadLang =
      .error (.languageNotRegistered "Brainfuck") ∧
    models_scrape_hall_of_fame resolveFix
      (FameRow.mk "Brainfuck" linksA :: []) =
      .error (pydanticStrErr "best_runtime") :=
  ⟨(c2_amended_language_check resolveFix rowsBadLang).1
      (FameRow.mk "Brainfuck" linksA) (by decide) (by decide) [],
   (c2_amended_language_check resolveFix rowsBadLang).2.1
      [] (FameRow.mk "Brainfuck" linksA) [] rfl
      (fun p hp => absurd hp (List.not_mem_nil p)) (by decide),
   (c2_amended_language_check resolveFix rowsBadLang).2.2
      (FameRow.mk "Brainfuck" linksA) [] (by decide)
      (fun id => ⟨subFix id, rfl⟩)⟩

/-- C8: whenever `_scrape_hall_of_fame` succeeds, the resulting mapping has
pairwise-distinct language keys, a key is present exactly when some body row
carries that language, and its entry is the one built from the *last* such
row (later rows overwrite earlier ones; no error, merge, or flag). -/
theorem c8_one_entry_per_language
    (resolve : String → Except PyErr Submissions) (rows : List FameRow)
    (d : List (String × HallOfFame))
    (h : scrape_hall_of_fame resolve rows = .ok d) :
    (d.map Prod.fst).Nodup ∧
    ∀ k, dictGet d k =
      (match rows.reverse.find? (fun r => r.languageText == k) with
        | some r => (hofEntryS resolve r).toOption
        | none => none) := by
  have hh := hofLoopS_ok resolve rows [] d h
  refine ⟨hh.1 (by simp), fun k => ?_⟩
  rw [hh.2 k]
  cases rows.reverse.find? (fun r => r.languageText == k) <;> rfl

/-- C8 witness: concrete duplicate-language table; the "C" entry is the one
from the later row. -/
theorem c8_one_entry_per_language_witness :
    (dDup.map Prod.fst).Nodup ∧
    dictGet dDup "C" =
      (match rowsDup.reverse.find? (fun r => r.languageText == "C") with
        | some r => (hofEntryS resolveFix r).toOption
        | none => none) ∧
    dictGet dDup "C" = some (HallOfFame.mk "9" "10" "11" "12") :=
  ⟨(c8_one_entry_per_language resolveFix rowsDup dDup rfl).1,
   (c8_one_entry_per_language resolveFix rowsDup dDup rfl).2 "C",
   rfl⟩

/-! ### Claim C7: author parsing -/

theorem pyGet_neg_two {α : Type} (xs : List α) (d : α) (h : 2 ≤ xs.length) :
    pyGet xs (-2) = .ok (xs.getD (xs.length - 2) d) := by
  unfold pyGet
  have h0 : ((-2 : Int) < 0) = True := by simp
  simp only [h0, if_true]
  rw [dif_pos (by omega : (0 : Int) ≤ -2 + xs.length ∧
    -2 + (xs.length : Int) < xs.length)]
  congr 1
  have hidx : ((-2 : Int) + xs.length).toNat = xs.length - 2 := by omega
  rw [List.getD_eq_getElem?_getD, List.getElem?_eq_getElem (by omega)]
  simp only [Option.getD_some, List.get_eq_getElem]
  congr 1

/-- The claim's phrasing: the last non-empty '/'-separated path segment of
the (stripped) href. Used only to state the counterexample. -/
def lastNonemptySegment (href : String) : Option String :=
  (((splitOnCharL '/' (pyStripL href.data)).filter
    (fun seg => !seg.isEmpty)).getLast?).map (fun l => (⟨l⟩ : String))

/-- Fixture: a redacted user cell. -/
def cellRed : UserCell := UserCell.mk " -- REDACTED -- " none

/-- Fixture: a user cell whose profile link has no trailing slash. -/
def cellBobNoSlash : UserCell :=
  UserCell.mk "bob" (some (UserLinkTag.mk (some "/users/alice") "6431"))

/-- Fixture: a user cell whose profile link ends with a slash. -/
def cellBobSlash : UserCell :=
  UserCell.mk "bob" (some (UserLinkTag.mk (some "/users/123/") "6431"))

/-- C7 counterexample: for the href "/users/alice" the last non-empty path
segment is "alice", but the code stores `split("/")[-2]`, i.e. "users", so
the claim's identifier description fails on hrefs without a trailing
slash. -/
theorem c7_user_id_not_last_segment :
    parseUser cellBobNoSlash = .ok (some (User.mk "bob" "users" "6431")) ∧
    lastNonemptySegment "/users/alice" = some "alice" ∧
    ("users" : String) ≠ "alice" :=
  ⟨rfl, rfl, by decide⟩

/-- C7 (amended): the author is absent exactly when the cell's stripped own
text equals the redaction marker; otherwise, when the profile link exists
with a string href whose '/'-split has at least two pieces, the author is
present with name equal to the stripped own text (possibly empty) and
identifier equal to the second-to-last piece of the split (`[-2]`, which is
the last non-empty segment only when the href ends with '/'). -/
theorem c7_author_redaction_amended (cell : UserCell) :
    (pyStrip cell.ownText = redactionMarker → parseUser cell = .ok none) ∧
    (∀ (lnk : UserLinkTag) (href : String),
      pyStrip cell.ownText ≠ redactionMarker →
      cell.link = some lnk → lnk.href = some href →
      2 ≤ (splitOnCharL '/' (pyStripL href.data)).length →
      parseUser cell = .ok (some (User.mk (pyStrip cell.ownText)
        (⟨(splitOnCharL '/' (pyStripL href.data)).getD
          ((splitOnCharL '/' (pyStripL href.data)).length - 2) []⟩ : String)
        lnk.text))) := by
  constructor
  · intro h
    unfold parseUser
    rw [if_pos h]
  · intro lnk href hne hlink hhref hlen
    unfold parseUser
    rw [if_neg hne]
    simp only [hlink, hhref]
    rw [pyGet_neg_two (splitOnCharL '/' (pyStripL href.data)) [] hlen]
    rfl

/-- C7 amended witness: the redacted cell yields an absent author; the cell
with href "/users/123/" yields the author with identifier "123". -/
theorem c7_author_redaction_amended_witness :
    parseUser cellRed = .ok none ∧
    parseUser cellBobSlash = .ok (some (User.mk "bob" "123" "6431")) :=
  ⟨(c7_author_redaction_amended cellRed).1 (by decide),
   ((c7_author_redaction_amended cellBobSlash).2
      (UserLinkTag.mk (some "/users/123/") "6431") "/users/123/"
      (by decide) rfl rfl (by decide)).trans (by rfl)⟩

/-! ### Claim C9: session cloning -/

theorem mem_keys_of_dictGet_some {α : Type} {e : List (String × α)}
    {k : String} {v : α} (h : dictGet e k = some v) :
    k ∈ e.map Prod.fst := by
  unfold dictGet at h
  cases hfind : e.find? (fun p => p.1 == k) with
  | none => rw [hfind] at h; cases h
  | some p =>
    have hp := List.find?_some hfind
    have hmem := List.mem_of_find?_eq_some hfind
    have hpk : p.1 = k := beq_iff_eq.mp hp
    rw [← hpk]
    exact List.mem_map_of_mem Prod.fst hmem

theorem dictGet_eq_none_of_not_mem {α : Type} {e : List (String × α)}
    {k : String} (h : k ∉ e.map Prod.fst) : dictGet e k = none := by
  cases hfind : dictGet e k with
  | none => rfl
  | some v => exact absurd (mem_keys_of_dictGet_some hfind) h

theorem dictGet_isSome_of_mem {α : Type} {e : List (String × α)}
    {k : String} (h : k ∈ e.map Prod.fst) : ∃ v, dictGet e k = some v := by
  induction e with
  | nil => cases h
  | cons a t ih =>
    rw [dictGet_cons]
    by_cases ha : a.1 = k
    · exact ⟨a.2, by rw [if_pos ha]⟩
    · rcases List.mem_cons.mp h with he | hmem
      · exact absurd he.symm ha
      · obtain ⟨v, hv⟩ := ih hmem
        exact ⟨v, by rw [if_neg ha]; exact hv⟩

theorem dictGet_dictUpdate {α : Type} :
    ∀ (e d : List (String × α)), (e.map Prod.fst).Nodup →
      ∀ k, dictGet (dictUpdate d e) k =
        (match dictGet e k with
          | some v => some v
          | none => dictGet d k)
  | [], d, _, k => rfl
  | a :: e, d, h, k => by
    rw [List.map_cons, List.nodup_cons] at h
    have hstep : dictUpdate d (a :: e) =
        dictUpdate (dictInsert d a.1 a.2) e := rfl
    rw [hstep, dictGet_dictUpdate e (dictInsert d a.1 a.2) h.2 k,
      dictGet_cons]
    by_cases hk : a.1 = k
    · have he : dictGet e k = none := by
        apply dictGet_eq_none_of_not_mem
        rw [← hk]
        exact h.1
      rw [he, if_pos hk]
      show dictGet (dictInsert d a.1 a.2) k = some a.2
      rw [dictGet_dictInsert, if_pos hk.symm]
    · rw [if_neg hk]
      cases hfind : dictGet e k with
      | some v => rfl
      | none =>
        show dictGet (dictInsert d a.1 a.2) k = dictGet d k
        rw [dictGet_dictInsert, if_neg (fun hh => hk hh.symm)]

/-- C9: `clone_session` on a valid session returns a new session whose
cookie map equals the original's, whose header map equals the original's
(given that the session's headers cover the library default header keys, as
any `requests.Session`'s do), and whose other state is the fresh session's;
the original session is returned untouched. -/
theorem c9_clone_session (defH : List (String × String)) (freshRest : Nat)
    (s : SessionS)
    (hck : (s.cookies.map Prod.fst).Nodup)
    (hhd : (s.headers.map Prod.fst).Nodup)
    (hdef : ∀ k ∈ defH.map Prod.fst, k ∈ s.headers.map Prod.fst) :
    (clone_session defH freshRest s).2 = s ∧
    (∀ k, dictGet (clone_session defH freshRest s).1.cookies k =
      dictGet s.cookies k) ∧
    (∀ k, dictGet (clone_session defH freshRest s).1.headers k =
      dictGet s.headers k) ∧
    (clone_session defH freshRest s).1.rest = freshRest := by
  refine ⟨rfl, fun k => ?_, fun k => ?_, rfl⟩
  · show dictGet (dictUpdate [] s.cookies) k = dictGet s.cookies k
    rw [dictGet_dictUpdate s.cookies [] hck k]
    cases dictGet s.cookies k with
    | some v => rfl
    | none => rfl
  · show dictGet (dictUpdate defH s.headers) k = dictGet s.headers k
    rw [dictGet_dictUpdate s.headers defH hhd k]
    cases hfind : dictGet s.headers k with
    | some v => rfl
    | none =>
      show dictGet defH k = none
      apply dictGet_eq_none_of_not_mem
      intro hmem
      obtain ⟨v, hv⟩ := dictGet_isSome_of_mem (hdef k hmem)
      rw [hfind] at hv
      cases hv

/-- Fixture: library default headers. -/
def defHW : List (String × String) :=
  [("User-Agent", "python-requests"), ("Accept", "*")]

/-- Fixture: an authenticated session (headers cover the default keys). -/
def sessW : SessionS :=
  SessionS.mk [("sid", "abc")]
    [("User-Agent", "python-requests"), ("Accept", "*"), ("X-Extra", "z")] 3

/-- C9 witness: concrete clone of `sessW`. -/
theorem c9_clone_session_witness :
    (clone_session defHW 7 sessW).2 = sessW ∧
    dictGet (clone_session defHW 7 sessW).1.cookies "sid" =
      dictGet sessW.cookies "sid" ∧
    dictGet (clone_session defHW 7 sessW).1.headers "User-Agent" =
      dictGet sessW.headers "User-Agent" ∧
    (clone_session defHW 7 sessW).1.rest = 7 :=
  ⟨(c9_clone_session defHW 7 sessW (by decide) (by decide) (by decide)).1,
   (c9_clone_session defHW 7 sessW (by decide) (by decide) (by decide)).2.1 "sid",
   (c9_clone_session defHW 7 sessW (by decide) (by decide) (by decide)).2.2.1
     "User-Agent",
   (c9_clone_session defHW 7 sessW (by decide) (by decide) (by decide)).2.2.2⟩

/-! ### Claim C5: submission-code extraction via the textarea pattern -/

theorem dropToGt_append (rest : List Char) :
    ∀ attrs : List Char, '>' ∉ attrs →
      dropToGt (attrs ++ '>' :: rest) = some rest
  | [], _ => by rw [List.nil_append, dropToGt, if_pos rfl]
  | c :: attrs, h => by
    have hc : ¬(c = '>') := fun hh => h (hh ▸ List.mem_cons_self c attrs)
    rw [List.cons_append, dropToGt, if_neg hc]
    exact dropToGt_append rest attrs (fun hm => h (List.mem_cons_of_mem c hm))

theorem capToLast_none :
    ∀ t : List Char, (∀ i, lit2.isPrefixOf (t.drop i) = false) →
      capToLast t = none
  | [], _ => rfl
  | c :: t, h => by
    have ht : capToLast t = none :=
      capToLast_none t (fun i => h (i + 1))
    rw [capToLast, ht]
    have h0 := h 0
    rw [List.drop_zero] at h0
    rw [if_neg (by rw [h0]; exact Bool.false_ne_true)]

theorem capToLast_last (post : List Char)
    (h : ∀ i, 0 < i → lit2.isPrefixOf ((lit2 ++ post).drop i) = false) :
    ∀ code : List Char, capToLast (code ++ (lit2 ++ post)) = some code
  | [] => by
    rw [List.nil_append]
    have hsplit : lit2 ++ post = '<' :: (lit2.drop 1 ++ post) := rfl
    rw [hsplit, capToLast]
    have htail : capToLast (lit2.drop 1 ++ post) = none := by
      apply capToLast_none
      intro i
      have hdd : (lit2.drop 1 ++ post).drop i = (lit2 ++ post).drop (1 + i) := by
        have : lit2.drop 1 ++ post = (lit2 ++ post).drop 1 := rfl
        rw [this, List.drop_drop]
      rw [hdd]
      exact h (1 + i) (by omega)
    rw [htail]
    rw [if_pos (by
      rw [← hsplit]
      exact List.isPrefixOf_iff_prefix.mpr (List.prefix_append lit2 post))]
  | c :: code => by
    rw [List.cons_append, capToLast, capToLast_last post h code]

theorem matchAt_of_isPrefixOf_false (s : List Char)
    (h : lit1.isPrefixOf s = false) : matchAt s = none := by
  rw [matchAt, if_neg (by rw [h]; exact Bool.false_ne_true)]

theorem matchAt_append (attrs rest : List Char) (h : '>' ∉ attrs) :
    matchAt (lit1 ++ (attrs ++ '>' :: rest)) = capToLast rest := by
  rw [matchAt,
    if_pos (List.isPrefixOf_iff_prefix.mpr
      (List.prefix_append lit1 (attrs ++ '>' :: rest))),
    List.drop_left, dropToGt_append rest attrs h]

theorem firstMatch_some :
    ∀ (s r : List Char), matchAt s = some r → firstMatch s = some r
  | [], r, h => by rw [firstMatch]; exact h
  | _ :: _, r, h => by rw [firstMatch, h]

theorem firstMatch_append :
    ∀ (pre s : List Char),
      (∀ i, i < pre.length → lit1.isPrefixOf ((pre ++ s).drop i) = false) →
      firstMatch (pre ++ s) = firstMatch s
  | [], s, _ => by rw [List.nil_append]
  | c :: pre, s, h => by
    have h0 := h 0 (by simp)
    rw [List.drop_zero] at h0
    rw [List.cons_append, firstMatch,
      matchAt_of_isPrefixOf_false _ (by rw [← List.cons_append]; exact h0)]
    exact firstMatch_append pre s
      (fun i hi => by
        have := h (i + 1) (by simpa using hi)
        rwa [List.cons_append, List.drop_succ_cons] at this)

theorem firstMatch_none :
    ∀ s : List Char, (∀ i, lit1.isPrefixOf (s.drop i) = false) →
      firstMatch s = none
  | [], h => by
    rw [firstMatch]
    exact matchAt_of_isPrefixOf_false [] (h 0)
  | c :: t, h => by
    have h0 := h 0
    rw [List.drop_zero] at h0
    rw [firstMatch, matchAt_of_isPrefixOf_false _ h0]
    exact firstMatch_none t (fun i => by
      have := h (i + 1)
      rwa [List.drop_succ_cons] at this)

/-- C5: the code-extraction step of `_scrape_submission`. For a submission
page consisting of a prefix with no textarea start, the first textarea block
(attributes free of `'>'`), its code, and a tail containing no closing
textarea tag, the extracted string is exactly the code — which may freely
contain raw `'<'`/`'>'` characters — up to the documented cleaning; and on
a page with no textarea block the extraction fails with the ScrapingError
reporting that no code block was found. -/
theorem c5_textarea_extraction :
    (∀ (pre attrs code post : List Char) (subId : String),
      (∀ i, i < pre.length → lit1.isPrefixOf
        ((pre ++ (lit1 ++ (attrs ++ '>' :: (code ++ (lit2 ++ post))))).drop i)
          = false) →
      '>' ∉ attrs →
      (∀ i, i ≤ (lit2 ++ post).length → 0 < i →
        lit2.isPrefixOf ((lit2 ++ post).drop i) = false) →
      scrapeSubmissionCode subId
        (pre ++ (lit1 ++ (attrs ++ '>' :: (code ++ (lit2 ++ post))))) =
        .ok (clean code)) ∧
    (∀ (page : List Char) (subId : String),
      (∀ i, i ≤ page.length → lit1.isPrefixOf (page.drop i) = false) →
      scrapeSubmissionCode subId page =
        .error (.scraping ("No content found in <textarea> for submission ID: "
          ++ subId))) := by
  constructor
  · intro pre attrs code post subId h1 h2 h3
    have h3' : ∀ i, 0 < i → lit2.isPrefixOf ((lit2 ++ post).drop i) = false := by
      intro i hi
      by_cases hle : i ≤ (lit2 ++ post).length
      · exact h3 i hle hi
      · rw [List.drop_eq_nil_of_le (by omega)]
        rfl
    have hfm : firstMatch
        (pre ++ (lit1 ++ (attrs ++ '>' :: (code ++ (lit2 ++ post))))) =
        some code := by
      rw [firstMatch_append pre _ h1]
      exact firstMatch_some _ code
        ((matchAt_append attrs (code ++ (lit2 ++ post)) h2).trans
          (capToLast_last post h3' code))
    rw [scrapeSubmissionCode, hfm]
  · intro page subId h
    have h' : ∀ i, lit1.isPrefixOf (page.drop i) = false := by
      intro i
      by_cases hle : i ≤ page.length
      · exact h i hle
      · rw [List.drop_eq_nil_of_le (by omega)]
        rfl
    rw [scrapeSubmissionCode, firstMatch_none page h']

/-- Fixture: page prefix before the textarea block. -/
def preW : List Char := "<html><body>".data

/-- Fixture: textarea attribute text. -/
def attrsW : List Char := " rows=10 cols=40".data

/-- Fixture: submitted code with raw angle brackets, a carriage return and a
trailing newline-entity artifact. -/
def codeW : List Char := "int x = a<b && c>d;\r&#x000A;".data

/-- Fixture: page tail after the closing textarea tag. -/
def postW : List Char := "</body></html>".data

/-- C5 witness: concrete extraction from a page whose code contains raw
`<`/`>`, and the error on a page without a textarea. -/
theorem c5_textarea_extraction_witness :
    scrapeSubmissionCode "123"
      (preW ++ (lit1 ++ (attrsW ++ '>' :: (codeW ++ (lit2 ++ postW))))) =
      .ok (clean codeW) ∧
    scrapeSubmissionCode "123" ("<html>no code</html>".data) =
      .error (.scraping ("No content found in <textarea> for submission ID: "
        ++ "123")) :=
  ⟨c5_textarea_extraction.1 preW attrsW codeW postW "123"
      (by decide) (by decide) (by decide),
   c5_textarea_extraction.2 ("<html>no code</html>".data) "123" (by decide)⟩
